import Mathlib

/-!
Shallow embedding of the petitcheval task tracker (Python/curses), covering the
tree flattener (`build_tree` in `tui.py`), the store query helpers
(`get_tasks`, `get_steps`, `step_counts` in `models.py`), the viewport
reconciliation, navigation, search, collapse-toggle and workspace-creation
actions of the main event loop (`tui_main` in `tui.py`).

SQLite rows become Lean structures; SQL `ORDER BY` clauses become
`List.insertionSort` with the corresponding (total, transitive) key relation —
the sort keys used by the source always end with the unique primary-key `id`
column, so the resulting order is uniquely determined and any correct sort is a
faithful model. Python string operations (`.lower()`, `in`, `.strip()`) become
per-character maps and list searches.
-/

namespace Petitcheval

/-- A row of the `workspaces` table (`db.py`): id, name, created_at. -/
structure Workspace where
  id : Nat
  name : String
  created_at : String
deriving DecidableEq, Repr

/-- A row of the `tasks` table (`db.py`): id, workspace_id, name, status, created_at. -/
structure Task where
  id : Nat
  workspace_id : Nat
  name : String
  status : String
  created_at : String
deriving DecidableEq, Repr

/-- A row of the `steps` table (`db.py`): id, task_id, text, done, priority,
created_at, completed_at (SQL `done` is an INTEGER used as a boolean, modelled
as `Bool`; the `note` column read by `get_steps` in `models.py`). -/
structure Step where
  id : Nat
  task_id : Nat
  text : String
  done : Bool
  priority : String
  created_at : String
  completed_at : Option String
  note : String
deriving DecidableEq, Repr

/-- The SQLite database state: the three tables, each a list of rows. -/
structure DB where
  workspaces : List Workspace
  tasks : List Task
  steps : List Step
deriving DecidableEq, Repr

/-- Lexicographic order on a triple of naturals (strict on the first two
components, `≤` on the last) — the shape of every `ORDER BY k1, k2, id`
clause in `models.py`. -/
def tripleLex (a b : Nat × Nat × Nat) : Prop :=
  a.1 < b.1 ∨ (a.1 = b.1 ∧ (a.2.1 < b.2.1 ∨ (a.2.1 = b.2.1 ∧ a.2.2 ≤ b.2.2)))

instance (a b : Nat × Nat × Nat) : Decidable (tripleLex a b) := by
  unfold tripleLex; exact inferInstance

/-- The numeric rank `CASE priority WHEN 'high' THEN 0 WHEN 'medium' THEN 1 ELSE 2 END`
from `get_steps` (`models.py`). -/
def priorityRank (p : String) : Nat :=
  if p = "high" then 0 else if p = "medium" then 1 else 2

/-- The sort key of `get_steps` (`models.py`): `ORDER BY done, priority rank, id`. -/
def stepKey (s : Step) : Nat × Nat × Nat :=
  (if s.done then 1 else 0, priorityRank s.priority, s.id)

/-- The row ordering produced by `get_steps`' `ORDER BY` clause. -/
def stepRel (a b : Step) : Prop := tripleLex (stepKey a) (stepKey b)

instance (a b : Step) : Decidable (stepRel a b) := by
  unfold stepRel; exact inferInstance

instance : IsTotal Step stepRel := by
  constructor; intro a b; unfold stepRel tripleLex; omega

instance : IsTrans Step stepRel := by
  constructor; intro a b c; unfold stepRel tripleLex; omega

/-- The row ordering of `get_tasks` with a status filter (`models.py`): `ORDER BY id`. -/
def taskIdRel (a b : Task) : Prop := a.id ≤ b.id

instance (a b : Task) : Decidable (taskIdRel a b) := by
  unfold taskIdRel; exact inferInstance

instance : IsTotal Task taskIdRel := by
  constructor; intro a b; unfold taskIdRel; omega

instance : IsTrans Task taskIdRel := by
  constructor; intro a b c; unfold taskIdRel; omega

/-- The numeric rank `CASE status WHEN 'in_progress' THEN 0 WHEN 'active' THEN 1 ELSE 2 END`
from the unfiltered branch of `get_tasks` (`models.py`). -/
def statusRank (st : String) : Nat :=
  if st = "in_progress" then 0 else if st = "active" then 1 else 2

/-- The row ordering of `get_tasks` without a status filter (`models.py`):
`ORDER BY status rank, id` (modelled with a constant middle key). -/
def taskStatusRel (a b : Task) : Prop :=
  tripleLex (statusRank a.status, 0, a.id) (statusRank b.status, 0, b.id)

instance (a b : Task) : Decidable (taskStatusRel a b) := by
  unfold taskStatusRel; exact inferInstance

instance : IsTotal Task taskStatusRel := by
  constructor; intro a b; unfold taskStatusRel tripleLex; omega

instance : IsTrans Task taskStatusRel := by
  constructor; intro a b c; unfold taskStatusRel tripleLex; omega

/-- `get_tasks(db, workspace_id, status_filter)` from `models.py`.
With a (truthy) filter: `WHERE workspace_id = ? AND status = ? ORDER BY id`;
without: `WHERE workspace_id = ? ORDER BY CASE status ... END, id`. -/
def get_tasks (db : DB) (workspace_id : Nat) (status_filter : Option String) : List Task :=
  match status_filter with
  | some st =>
      List.insertionSort taskIdRel
        (db.tasks.filter fun t => t.workspace_id == workspace_id && t.status == st)
  | none =>
      List.insertionSort taskStatusRel
        (db.tasks.filter fun t => t.workspace_id == workspace_id)

/-- `get_steps(db, task_id, status_filter)` from `models.py`:
`WHERE task_id = ?` plus `AND done = 0` for `"pending"` / `AND done = 1` for
`"done"`, `ORDER BY done, CASE priority ... END, id`. -/
def get_steps (db : DB) (task_id : Nat) (status_filter : String) : List Step :=
  List.insertionSort stepRel
    (db.steps.filter fun s =>
      s.task_id == task_id &&
        (if status_filter = "pending" then !s.done
         else if status_filter = "done" then s.done
         else true))

/-- `step_counts(db, task_id)` from `models.py`: `SELECT COUNT(*), SUM(done)`,
with `SUM` of a 0/1 column being the count of done steps (`int(row[1] or 0)`
realises the NULL-sum-of-empty as 0). -/
def step_counts (db : DB) (task_id : Nat) : Nat × Nat :=
  let l := db.steps.filter fun s => s.task_id == task_id
  (l.length, (l.filter fun s => s.done).length)

/-- Python `s.lower()`: per-character lowercasing of the string. -/
def pyLower (s : String) : String := ⟨s.data.map Char.toLower⟩

/-- Python `s.strip()`: drop leading and trailing whitespace. -/
def pyStrip (s : String) : String :=
  ⟨((s.data.dropWhile Char.isWhitespace).reverse.dropWhile Char.isWhitespace).reverse⟩

/-- Contiguous-substring test on character lists: Python's `needle in hay`. -/
def listSubstr (needle : List Char) : List Char → Bool
  | [] => needle.isEmpty
  | c :: rest => needle.isPrefixOf (c :: rest) || listSubstr needle rest

/-- Python `needle in hay` on strings (contiguous substring containment). -/
def pyIn (needle hay : String) : Bool := listSubstr needle.data hay.data

/-- A row of the flattened tree (`build_tree` in `tui.py`): the task dict
`{type, id, name, total, done, collapsed}` or the step dict
`{type, id, task_id, text, done, priority}`. -/
inductive Row where
  | task (id : Nat) (name : String) (total : Nat) (done : Nat) (collapsed : Bool)
  | step (id : Nat) (task_id : Nat) (text : String) (done : Bool) (priority : String)
deriving DecidableEq, Repr

/-- The step dict appended by `build_tree` for a step row `s`. -/
def mkStepRow (s : Step) : Row :=
  Row.step s.id s.task_id s.text s.done s.priority

/-- The body of `build_tree`'s per-task loop (`tui.py` lines 110-140), with
`query` already lowercased (line 108). Skipping via `continue` becomes
returning `[]`; the appends become list construction. -/
def rowsForTask (db : DB) (collapsed : Finset Nat) (query : String) (t : Task) : List Row :=
  if query ≠ "" then
    if !pyIn query (pyLower t.name)
        && ((get_steps db t.id "all").filter fun s => pyIn query (pyLower s.text)).isEmpty then
      []
    else
      Row.task t.id t.name (step_counts db t.id).1 (step_counts db t.id).2
          (decide (t.id ∈ collapsed)) ::
        (if t.id ∉ collapsed then
          ((if pyIn query (pyLower t.name) then get_steps db t.id "all"
            else (get_steps db t.id "all").filter fun s => pyIn query (pyLower s.text)).map
            mkStepRow)
         else [])
  else
    Row.task t.id t.name (step_counts db t.id).1 (step_counts db t.id).2
        (decide (t.id ∈ collapsed)) ::
      (if t.id ∉ collapsed then (get_steps db t.id "all").map mkStepRow else [])

/-- `build_tree(db, workspace_id, collapsed, search_query)` from `tui.py`:
lowercase the query once, walk `get_tasks(db, workspace_id, status_filter="active")`
in order, and concatenate each task's contribution. -/
def build_tree (db : DB) (workspace_id : Nat) (collapsed : Finset Nat)
    (search_query : String) : List Row :=
  (get_tasks db workspace_id (some "active")).flatMap
    (rowsForTask db collapsed (pyLower search_query))

/-- The collapse toggle of the activate action on a Task row
(`tui.py` lines 301-306): discard the id if present, else add it. -/
def toggleCollapse (collapsed : Finset Nat) (tid : Nat) : Finset Nat :=
  if tid ∈ collapsed then collapsed.erase tid else insert tid collapsed

/-- The viewport reconciliation at the top of the event loop
(`tui.py` lines 262-270): clamp the cursor into the row list, then follow with
the scroll offset; `(0, 0)` when the row list is empty. `nrows` is `len(rows)`;
cursor, scroll and visible height are Python ints, modelled as `Int`. -/
def reconcile (nrows : Nat) (cursor scroll visible : Int) : Int × Int :=
  if nrows = 0 then (0, 0)
  else
    let c := max 0 (min cursor ((nrows : Int) - 1))
    let s1 := if c < scroll then c else scroll
    let s2 := if c ≥ s1 + visible then c - visible + 1 else s1
    (c, s2)

/-- The four pure navigation keys of the event loop (`tui.py` lines 283-295):
`k`/up, `j`/down, `g` (top), `G` (bottom). -/
inductive NavKey where
  | up
  | down
  | top
  | bottom
deriving DecidableEq, Repr

/-- The per-iteration mutable locals of `tui_main` (`tui.py` lines 248-255)
other than the database connection. -/
structure UIState where
  wsId : Nat
  wsName : String
  collapsed : Finset Nat
  cursor : Int
  scroll : Int
  statusMsg : String
  searchQuery : String
deriving DecidableEq

/-- The new cursor after one navigation key (`tui.py` lines 283-295): `up`
clamps at 0 unconditionally; `down` and `bottom` clamp at `len(rows) - 1` and
are guarded by `if rows:`; `top` jumps to 0 unconditionally. -/
def navCursor (nrows : Nat) (k : NavKey) (c : Int) : Int :=
  match k with
  | .up => max 0 (c - 1)
  | .down => if nrows ≠ 0 then min ((nrows : Int) - 1) (c + 1) else c
  | .top => 0
  | .bottom => if nrows ≠ 0 then (nrows : Int) - 1 else c

/-- One navigation key applied to the full loop state: the four branches
assign only `cursor_pos`; the database and every other local are untouched. -/
def navStep (db : DB) (nrows : Nat) (k : NavKey) (st : UIState) : DB × UIState :=
  (db, { st with cursor := navCursor nrows k st.cursor })

/-- The prefill the search action (`f`, `tui.py` line 394) passes to
`textbox_input`: the call omits the `prefill` argument, so the widget's
default `""` is used (line 11) — the current query is not passed. -/
def searchPrefill (_st : UIState) : String := ""

/-- The search action (`f`, `tui.py` lines 393-399) applied to the widget's
result: `None` (ESC) clears the query, a committed string is stripped and
stored; cursor and scroll are set to 0 in both cases. -/
def searchAction (st : UIState) (result : Option String) : UIState :=
  match result with
  | none => { st with searchQuery := "", cursor := 0, scroll := 0 }
  | some q => { st with searchQuery := pyStrip q, cursor := 0, scroll := 0 }

/-- The id SQLite assigns to a newly inserted workspace row (`lastrowid` of an
AUTOINCREMENT primary key): one more than the largest existing id. -/
def nextWorkspaceId (db : DB) : Nat :=
  (db.workspaces.map Workspace.id).foldr max 0 + 1

/-- The "create new" branch of the workspace switcher (`w`, `tui.py` lines
407-422) applied to the name widget's result. `if name and name.strip():`
becomes the emptiness tests; a duplicate name only sets the status message
(the Python message wraps the name in single quotes, omitted here); otherwise
the row is inserted and the session switches to the new workspace. `now` is
the `datetime.now().isoformat()` timestamp, passed in as a parameter. -/
def createWorkspaceAction (db : DB) (st : UIState) (entered : Option String)
    (now : String) : DB × UIState :=
  match entered with
  | none => (db, st)
  | some raw =>
    if raw ≠ "" ∧ pyStrip raw ≠ "" then
      if db.workspaces.any (fun w => w.name == pyStrip raw) then
        (db, { st with statusMsg := "Workspace " ++ pyStrip raw ++ " already exists" })
      else
        ({ db with workspaces := db.workspaces ++ [⟨nextWorkspaceId db, pyStrip raw, now⟩] },
         { st with wsId := nextWorkspaceId db, wsName := pyStrip raw, collapsed := ∅,
                   cursor := 0, scroll := 0,
                   statusMsg := "Created workspace: " ++ pyStrip raw })
    else (db, st)

/-- The task ids of the Task rows of a flattened row list, in order. -/
def taskIdsOf (rows : List Row) : List Nat :=
  rows.filterMap fun r =>
    match r with
    | Row.task i _ _ _ _ => some i
    | Row.step _ _ _ _ _ => none

/-- The owning-task ids of the Step rows of a flattened row list, in order
(the `task_id` field of each step dict). -/
def stepTaskIdsOf (rows : List Row) : List Nat :=
  rows.filterMap fun r =>
    match r with
    | Row.task _ _ _ _ _ => none
    | Row.step _ tid _ _ _ => some tid

/-- The step ids of the Step rows of a flattened row list, in order. -/
def stepIdsOf (rows : List Row) : List Nat :=
  rows.filterMap fun r =>
    match r with
    | Row.task _ _ _ _ _ => none
    | Row.step i _ _ _ _ => some i

/-- Checks that every Step row's `task_id` equals the id of the nearest
preceding Task row, threading the id of the last Task row seen (`owner`;
`none` before any Task row, so a leading Step row fails). -/
def wellNested (owner : Option Nat) : List Row → Bool
  | [] => true
  | Row.task i _ _ _ _ :: rest => wellNested (some i) rest
  | Row.step _ tid _ _ _ :: rest => owner == some tid && wellNested owner rest

/-- True when the list is empty or starts with a Task row. -/
def headIsTask : List Row → Bool
  | [] => true
  | Row.task _ _ _ _ _ :: _ => true
  | Row.step _ _ _ _ _ :: _ => false

/-- The scenario database of spec §8: workspace 1 holds task "Ship release"
with pending high step "write changelog" and done medium step "tag commit". -/
def dbDemo : DB where
  workspaces := [⟨1, "default", "t0"⟩]
  tasks := [⟨1, 1, "Ship release", "active", "t0"⟩]
  steps :=
    [⟨1, 1, "write changelog", false, "high", "t0", none, ""⟩,
     ⟨2, 1, "tag commit", true, "medium", "t1", some "t2", ""⟩]

/-- A database whose single task has a done medium step created before a
pending high step, so stored creation order (ids `[1, 2]`) and the
`get_steps` display order differ. -/
def dbOrder : DB where
  workspaces := [⟨1, "default", "t0"⟩]
  tasks := [⟨1, 1, "T", "active", "t0"⟩]
  steps :=
    [⟨1, 1, "a", true, "medium", "t0", some "t1", ""⟩,
     ⟨2, 1, "b", false, "high", "t0", none, ""⟩]

/-- A database whose single task is `in_progress` (not done), to probe which
statuses the tree view admits. -/
def dbProg : DB where
  workspaces := [⟨1, "default", "t0"⟩]
  tasks := [⟨1, 1, "Busy", "in_progress", "t0"⟩]
  steps := [⟨1, 1, "only step", false, "medium", "t0", none, ""⟩]

/-- A fixed session state used to instantiate action theorems. -/
def stDemo : UIState :=
  { wsId := 1, wsName := "default", collapsed := ∅, cursor := 1, scroll := 0,
    statusMsg := "", searchQuery := "tag" }

/-- A database with two workspaces, used to exercise the duplicate-name path
of workspace creation. -/
def dbWs : DB where
  workspaces := [⟨1, "default", "t0"⟩, ⟨2, "work", "t1"⟩]
  tasks := []
  steps := []

/-- Runs a sequence of navigation keys through the event loop's navigation
branches, threading the database (untouched by them) and the session state. -/
def navRun (nrows : Nat) (keys : List NavKey) (p : DB × UIState) : DB × UIState :=
  keys.foldl (fun p k => navStep p.1 nrows k p.2) p

lemma toggleCollapse_toggleCollapse (c : Finset Nat) (tid : Nat) :
    toggleCollapse (toggleCollapse c tid) tid = c := by
  by_cases h : tid ∈ c
  · simp [toggleCollapse, h, Finset.not_mem_erase, Finset.insert_erase]
  · simp [toggleCollapse, h, Finset.erase_insert]

lemma pyLower_empty : pyLower "" = "" := rfl

lemma pyLower_ne_empty {q : String} (h : q ≠ "") : pyLower q ≠ "" := by
  intro hc
  apply h
  cases q with
  | mk l =>
    cases l with
    | nil => rfl
    | cons c cs => simpa [pyLower] using congrArg String.data hc

lemma mem_get_steps {db : DB} {tid : Nat} {f : String} {s : Step}
    (h : s ∈ get_steps db tid f) : s.task_id = tid := by
  unfold get_steps at h
  rw [List.mem_insertionSort, List.mem_filter] at h
  have h3 := ((Bool.and_eq_true _ _).mp h.2).1
  simpa using h3

lemma mem_get_tasks_active {db : DB} {ws : Nat} {t : Task} :
    t ∈ get_tasks db ws (some "active") ↔
      t ∈ db.tasks ∧ t.workspace_id = ws ∧ t.status = "active" := by
  unfold get_tasks
  rw [List.mem_insertionSort, List.mem_filter]
  simp [and_assoc]

lemma rowsForTask_shape (db : DB) (c : Finset Nat) (q : String) (t : Task) :
    rowsForTask db c q t = []
    ∨ ∃ l : List Step, (∀ s ∈ l, s ∈ get_steps db t.id "all")
        ∧ rowsForTask db c q t =
            Row.task t.id t.name (step_counts db t.id).1 (step_counts db t.id).2
              (decide (t.id ∈ c)) :: l.map mkStepRow := by
  unfold rowsForTask
  by_cases hq : q ≠ ""
  · rw [if_pos hq]
    by_cases hskip : (!pyIn q (pyLower t.name)
        && ((get_steps db t.id "all").filter fun s => pyIn q (pyLower s.text)).isEmpty) = true
    · left
      rw [if_pos hskip]
    · right
      rw [if_neg hskip]
      by_cases hc : t.id ∈ c
      · exact ⟨[], by simp, by simp [hc]⟩
      · by_cases htm : pyIn q (pyLower t.name) = true
        · exact ⟨get_steps db t.id "all", fun s hs => hs, by simp [hc, htm]⟩
        · refine ⟨(get_steps db t.id "all").filter fun s => pyIn q (pyLower s.text),
            fun s hs => (List.mem_filter.mp hs).1, ?_⟩
          simp [hc, htm]
  · rw [if_neg hq]
    right
    by_cases hc : t.id ∈ c
    · exact ⟨[], by simp, by simp [hc]⟩
    · exact ⟨get_steps db t.id "all", fun s hs => hs, by simp [hc]⟩

lemma task_row_mem_rowsForTask {db : DB} {c : Finset Nat} {q : String} {t : Task} {r : Row}
    (hr : r ∈ rowsForTask db c q t) {i : Nat} {n : String} {tot d : Nat} {cl : Bool}
    (he : r = Row.task i n tot d cl) :
    i = t.id ∧ n = t.name ∧ tot = (step_counts db t.id).1 ∧ d = (step_counts db t.id).2
      ∧ cl = decide (t.id ∈ c) := by
  rcases rowsForTask_shape db c q t with h | ⟨l, _, h⟩
  · rw [h] at hr
    cases hr
  · rw [h] at hr
    rcases List.mem_cons.mp hr with h1 | h2
    · rw [he] at h1
      injection h1 with e1 e2 e3 e4 e5
      exact ⟨e1, e2, e3, e4, e5⟩
    · rcases List.mem_map.mp h2 with ⟨s, _, hs⟩
      rw [he] at hs
      simp [mkStepRow] at hs

lemma rowsForTask_query_eq (db : DB) (c : Finset Nat) {q : String} (hq : q ≠ "") (t : Task) :
    rowsForTask db c q t =
      if pyIn q (pyLower t.name) = true
          ∨ ((get_steps db t.id "all").filter fun s => pyIn q (pyLower s.text)) ≠ [] then
        Row.task t.id t.name (step_counts db t.id).1 (step_counts db t.id).2
            (decide (t.id ∈ c)) ::
          (if t.id ∈ c then []
           else (if pyIn q (pyLower t.name) = true then get_steps db t.id "all"
                 else (get_steps db t.id "all").filter fun s =>
                   pyIn q (pyLower s.text)).map mkStepRow)
      else [] := by
  unfold rowsForTask
  rw [if_pos hq]
  by_cases htm : pyIn q (pyLower t.name) = true <;>
    by_cases hms : ((get_steps db t.id "all").filter fun s => pyIn q (pyLower s.text)) = [] <;>
    by_cases hc : t.id ∈ c <;>
    simp [htm, hms, hc, List.isEmpty_iff]

lemma rowsForTask_empty_query (db : DB) (collapsed : Finset Nat) (t : Task) :
    rowsForTask db collapsed "" t =
      Row.task t.id t.name (step_counts db t.id).1 (step_counts db t.id).2
          (decide (t.id ∈ collapsed)) ::
        (if t.id ∈ collapsed then [] else (get_steps db t.id "all").map mkStepRow) := by
  by_cases hc : t.id ∈ collapsed <;> simp [rowsForTask, hc]

/-- C7: toggling a task id's membership in the collapse set twice (the
activate action on a Task row applied twice with no intervening mutation)
returns the flattened row list exactly to its pre-toggle form. -/
theorem build_tree_toggle_toggle (db : DB) (workspace_id : Nat) (collapsed : Finset Nat)
    (tid : Nat) (search_query : String) :
    build_tree db workspace_id (toggleCollapse (toggleCollapse collapsed tid) tid) search_query
      = build_tree db workspace_id collapsed search_query := by
  rw [toggleCollapse_toggleCollapse]

/-- C4: with an empty query, the flattener emits a Task row for every
considered task, followed immediately by all of that task's steps as Step
rows — unless the task id is in the collapse set, in which case no Step rows
follow it and its Task row's collapsed flag is set. -/
theorem build_tree_empty_query (db : DB) (workspace_id : Nat) (collapsed : Finset Nat) :
    build_tree db workspace_id collapsed "" =
      (get_tasks db workspace_id (some "active")).flatMap (fun t =>
        Row.task t.id t.name (step_counts db t.id).1 (step_counts db t.id).2
            (decide (t.id ∈ collapsed)) ::
          (if t.id ∈ collapsed then [] else (get_steps db t.id "all").map mkStepRow)) := by
  unfold build_tree
  rw [pyLower_empty]
  congr 1
  funext t
  exact rowsForTask_empty_query db collapsed t

/-- C5 counterexample: with current search query `"tag"`, the search action
passes an empty prefill to the text widget, not the current query. -/
theorem search_prefill_counterexample : searchPrefill stDemo ≠ stDemo.searchQuery := by
  decide

/-- C5 (amended): the search action opens the text editor with an *empty*
prefill (the current query is not passed); committing (even an empty string)
sets the search query to the trimmed committed text, cancelling clears it to
empty, and in both cases cursor and scroll are reset to 0. -/
theorem search_action_spec (st : UIState) (q : String) :
    searchPrefill st = ""
    ∧ (searchAction st (some q)).searchQuery = pyStrip q
    ∧ (searchAction st none).searchQuery = ""
    ∧ (searchAction st (some q)).cursor = 0 ∧ (searchAction st (some q)).scroll = 0
    ∧ (searchAction st none).cursor = 0 ∧ (searchAction st none).scroll = 0 :=
  ⟨rfl, rfl, rfl, rfl, rfl, rfl, rfl⟩

/-- C3 counterexample: with one row, cursor 0, scroll 0 and visible height 0,
reconciliation yields scroll 1 > cursor 0, violating the claimed invariant
`scroll ≤ cursor ≤ scroll + visible_height - 1` even though rows ≠ []. -/
theorem reconcile_counterexample :
    ¬((reconcile 1 0 0 0).2 ≤ (reconcile 1 0 0 0).1
      ∧ (reconcile 1 0 0 0).1 ≤ (reconcile 1 0 0 0).2 + 0 - 1) := by
  decide

/-- C3 (amended): reconciliation of an empty row list yields cursor 0 and
scroll 0; otherwise the cursor is clamped into `[0, len(rows)-1]` and scroll
shifts minimally exactly as claimed, and — provided the visible height is at
least 1 — `scroll ≤ cursor ≤ scroll + visible_height - 1` holds afterwards. -/
theorem reconcile_spec (nrows : Nat) (cursor scroll visible : Int)
    (hv : 1 ≤ visible) (hn : nrows ≠ 0) :
    (reconcile 0 cursor scroll visible = (0, 0))
    ∧ (reconcile nrows cursor scroll visible).1 = max 0 (min cursor ((nrows : Int) - 1))
    ∧ 0 ≤ (reconcile nrows cursor scroll visible).1
    ∧ (reconcile nrows cursor scroll visible).1 ≤ (nrows : Int) - 1
    ∧ (reconcile nrows cursor scroll visible).2 =
        (if (reconcile nrows cursor scroll visible).1 < scroll then
          (reconcile nrows cursor scroll visible).1
        else if scroll + visible ≤ (reconcile nrows cursor scroll visible).1 then
          (reconcile nrows cursor scroll visible).1 - visible + 1
        else scroll)
    ∧ (reconcile nrows cursor scroll visible).2 ≤ (reconcile nrows cursor scroll visible).1
    ∧ (reconcile nrows cursor scroll visible).1
        ≤ (reconcile nrows cursor scroll visible).2 + visible - 1 := by
  have h1 : (1:Nat) ≤ nrows := Nat.one_le_iff_ne_zero.mpr hn
  have hre : reconcile nrows cursor scroll visible =
      (max 0 (min cursor ((nrows : Int) - 1)),
        if max 0 (min cursor ((nrows : Int) - 1)) ≥
            (if max 0 (min cursor ((nrows : Int) - 1)) < scroll then
              max 0 (min cursor ((nrows : Int) - 1))
            else scroll) + visible then
          max 0 (min cursor ((nrows : Int) - 1)) - visible + 1
        else if max 0 (min cursor ((nrows : Int) - 1)) < scroll then
          max 0 (min cursor ((nrows : Int) - 1))
        else scroll) := by
    unfold reconcile
    rw [if_neg hn]
  refine ⟨by simp [reconcile], ?_, ?_, ?_, ?_, ?_, ?_⟩ <;>
    rw [hre] <;> dsimp only <;> omega

lemma get_steps_all_pred (db : DB) (task_id : Nat) :
    (db.steps.filter fun s =>
        s.task_id == task_id &&
          (if ("all" : String) = "pending" then !s.done
           else if ("all" : String) = "done" then s.done
           else true))
      = db.steps.filter fun s => s.task_id == task_id := by
  have hp : ¬(("all" : String) = "pending") := by decide
  have hd : ¬(("all" : String) = "done") := by decide
  simp only [if_neg hp, if_neg hd, Bool.and_true]

lemma stepIdsOf_task_cons (i : Nat) (n : String) (a b : Nat) (c : Bool) (rows : List Row) :
    stepIdsOf (Row.task i n a b c :: rows) = stepIdsOf rows := rfl

lemma stepIdsOf_map_mkStepRow (l : List Step) :
    stepIdsOf (l.map mkStepRow) = l.map Step.id := by
  induction l with
  | nil => rfl
  | cons s l ih =>
    have h : stepIdsOf ((s :: l).map mkStepRow) = s.id :: stepIdsOf (l.map mkStepRow) := rfl
    rw [h, ih, List.map_cons]

/-- C2 counterexample: in `dbOrder`, the single task's steps were created in
id order `[1, 2]` (a done medium step, then a pending high step), but the
flattened tree displays them as `[2, 1]` — `get_steps`' `ORDER BY done,
priority, id` reorders them, so display order is not persisted creation
order. -/
theorem step_order_counterexample :
    stepIdsOf (build_tree dbOrder 1 ∅ "") = [2, 1]
    ∧ dbOrder.steps.map Step.id = [1, 2]
    ∧ stepIdsOf (build_tree dbOrder 1 ∅ "") ≠ dbOrder.steps.map Step.id := by
  decide

/-- C2 (amended): ordering is deterministic, but only task ordering follows
persisted creation (id) order; steps within a task are ordered by the store's
`get_steps` query — pending before done, then priority high/medium/low, then
id — and the flattener itself never reorders: it displays `get_steps`' order
unchanged (shown here for an uncollapsed task with empty query). -/
theorem store_display_order (db : DB) (workspace_id task_id : Nat) :
    (get_steps db task_id "all").Perm (db.steps.filter fun s => s.task_id == task_id)
    ∧ List.Sorted stepRel (get_steps db task_id "all")
    ∧ (get_tasks db workspace_id (some "active")).Perm
        (db.tasks.filter fun t => t.workspace_id == workspace_id && t.status == "active")
    ∧ List.Sorted taskIdRel (get_tasks db workspace_id (some "active"))
    ∧ ∀ t : Task, stepIdsOf (rowsForTask db ∅ "" t) = (get_steps db t.id "all").map Step.id := by
  refine ⟨?_, ?_, ?_, ?_, ?_⟩
  · unfold get_steps
    rw [get_steps_all_pred]
    exact List.perm_insertionSort _ _
  · exact List.sorted_insertionSort _ _
  · exact List.perm_insertionSort _ _
  · exact List.sorted_insertionSort _ _
  · intro t
    rw [rowsForTask_empty_query, if_neg (Finset.not_mem_empty t.id), stepIdsOf_task_cons,
      stepIdsOf_map_mkStepRow]

/-- C9: choosing "create new" in the workspace switcher and committing a name
that already exists only sets the non-fatal status message: the database is
unchanged (no workspace row inserted) and the active workspace, collapse set,
cursor and scroll keep their values; control falls back to the event loop. -/
theorem create_workspace_duplicate (db : DB) (st : UIState) (raw now : String)
    (h1 : pyStrip raw ≠ "") (h2 : ∃ w ∈ db.workspaces, w.name = pyStrip raw) :
    createWorkspaceAction db st (some raw) now =
      (db, { st with statusMsg := "Workspace " ++ pyStrip raw ++ " already exists" }) := by
  have hraw : raw ≠ "" := by
    intro h
    subst h
    exact h1 rfl
  have hany : db.workspaces.any (fun w => w.name == pyStrip raw) = true := by
    rcases h2 with ⟨w, hw, hname⟩
    exact List.any_eq_true.mpr ⟨w, hw, by simp [hname]⟩
  simp only [createWorkspaceAction]
  rw [if_pos ⟨hraw, h1⟩, if_pos hany]

/-- C9 witness: committing `" work "` (trimming to the existing name `"work"`)
against `dbWs` leaves the database and session untouched except for the
status message. -/
theorem create_workspace_duplicate_witness :
    (pyStrip " work " ≠ "" ∧ ∃ w ∈ dbWs.workspaces, w.name = pyStrip " work ")
    ∧ createWorkspaceAction dbWs stDemo (some " work ") "t2" =
        (dbWs, { stDemo with statusMsg := "Workspace " ++ pyStrip " work " ++ " already exists" }) :=
  ⟨⟨by decide, by decide⟩,
    create_workspace_duplicate dbWs stDemo " work " "t2" (by decide) (by decide)⟩

lemma navCursor_mem (nrows : Nat) (k : NavKey) (c : Int)
    (hn : 1 ≤ nrows) (h0 : 0 ≤ c) (h1 : c ≤ (nrows : Int) - 1) :
    0 ≤ navCursor nrows k c ∧ navCursor nrows k c ≤ (nrows : Int) - 1 := by
  have h : nrows ≠ 0 := by omega
  cases k <;> simp [navCursor, h] <;> omega

lemma navCursor_no_wrap (nrows : Nat) (hn : 1 ≤ nrows) :
    navCursor nrows NavKey.up 0 = 0
    ∧ navCursor nrows NavKey.down ((nrows : Int) - 1) = (nrows : Int) - 1 := by
  have h : nrows ≠ 0 := by omega
  constructor
  · simp only [navCursor]
    omega
  · simp only [navCursor, if_pos h]
    omega

/-- C8: over a non-empty row list, any sequence of navigation keys keeps the
cursor within `[0, len(rows)-1]` with no wrap at either end (up at 0 stays 0,
down at the last row stays there), and navigation changes only the cursor:
the database and the scroll, collapse set, query, and workspace fields of the
session are untouched. -/
theorem navigation_spec (db : DB) (nrows : Nat) (st : UIState) (keys : List NavKey)
    (hn : 1 ≤ nrows) (h0 : 0 ≤ st.cursor) (h1 : st.cursor ≤ (nrows : Int) - 1) :
    (0 ≤ (navRun nrows keys (db, st)).2.cursor
      ∧ (navRun nrows keys (db, st)).2.cursor ≤ (nrows : Int) - 1)
    ∧ (navRun nrows keys (db, st)).1 = db
    ∧ (navRun nrows keys (db, st)).2.scroll = st.scroll
    ∧ (navRun nrows keys (db, st)).2.collapsed = st.collapsed
    ∧ (navRun nrows keys (db, st)).2.searchQuery = st.searchQuery
    ∧ (navRun nrows keys (db, st)).2.wsId = st.wsId
    ∧ (navRun nrows keys (db, st)).2.wsName = st.wsName
    ∧ navCursor nrows NavKey.up 0 = 0
    ∧ navCursor nrows NavKey.down ((nrows : Int) - 1) = (nrows : Int) - 1 := by
  induction keys generalizing db st with
  | nil =>
    exact ⟨⟨h0, h1⟩, rfl, rfl, rfl, rfl, rfl, rfl,
      (navCursor_no_wrap nrows hn).1, (navCursor_no_wrap nrows hn).2⟩
  | cons k keys ih =>
    have hb := navCursor_mem nrows k st.cursor hn h0 h1
    exact ih db { st with cursor := navCursor nrows k st.cursor } hb.1 hb.2

/-- C8 witness: four navigation keys over a 3-row list starting from cursor 1
stay in bounds and leave everything but the cursor unchanged. -/
theorem navigation_spec_witness :
    ((1 : Nat) ≤ 3 ∧ (0 : Int) ≤ stDemo.cursor ∧ stDemo.cursor ≤ (3 : Int) - 1)
    ∧ ((0 ≤ (navRun 3 [NavKey.up, NavKey.down, NavKey.bottom, NavKey.top]
            (dbDemo, stDemo)).2.cursor
        ∧ (navRun 3 [NavKey.up, NavKey.down, NavKey.bottom, NavKey.top]
            (dbDemo, stDemo)).2.cursor ≤ (3 : Int) - 1)
      ∧ (navRun 3 [NavKey.up, NavKey.down, NavKey.bottom, NavKey.top]
          (dbDemo, stDemo)).1 = dbDemo
      ∧ (navRun 3 [NavKey.up, NavKey.down, NavKey.bottom, NavKey.top]
          (dbDemo, stDemo)).2.scroll = stDemo.scroll
      ∧ (navRun 3 [NavKey.up, NavKey.down, NavKey.bottom, NavKey.top]
          (dbDemo, stDemo)).2.collapsed = stDemo.collapsed
      ∧ (navRun 3 [NavKey.up, NavKey.down, NavKey.bottom, NavKey.top]
          (dbDemo, stDemo)).2.searchQuery = stDemo.searchQuery
      ∧ (navRun 3 [NavKey.up, NavKey.down, NavKey.bottom, NavKey.top]
          (dbDemo, stDemo)).2.wsId = stDemo.wsId
      ∧ (navRun 3 [NavKey.up, NavKey.down, NavKey.bottom, NavKey.top]
          (dbDemo, stDemo)).2.wsName = stDemo.wsName
      ∧ navCursor 3 NavKey.up 0 = 0
      ∧ navCursor 3 NavKey.down ((3 : Int) - 1) = (3 : Int) - 1) :=
  ⟨⟨by decide, by decide, by decide⟩,
    navigation_spec dbDemo 3 stDemo [NavKey.up, NavKey.down, NavKey.bottom, NavKey.top]
      (by decide) (by decide) (by decide)⟩

/-- C1: under a non-empty query (matched case-insensitively as a substring),
a considered task contributes a Task row to the flattened list iff the query
matches its name or at least one of its steps' texts; when it does, the Task
row is followed by all of the task's steps if the name matched, by exactly
the matching steps if only steps matched, and by no Step rows at all if the
task id is collapsed (`build_tree` concatenates the per-task contribution
`rowsForTask` in task order, so the second conjunct is exactly what follows
the Task row). Task ids are assumed distinct, as the primary key guarantees. -/
theorem build_tree_query_filter (db : DB) (workspace_id : Nat) (collapsed : Finset Nat)
    (q : String) (hq : q ≠ "") (hids : (db.tasks.map Task.id).Nodup)
    (t : Task) (ht : t ∈ get_tasks db workspace_id (some "active")) :
    ((∃ r ∈ build_tree db workspace_id collapsed q, ∃ n tot d cl, r = Row.task t.id n tot d cl)
      ↔ (pyIn (pyLower q) (pyLower t.name) = true
          ∨ ((get_steps db t.id "all").filter fun s => pyIn (pyLower q) (pyLower s.text)) ≠ []))
    ∧ rowsForTask db collapsed (pyLower q) t =
        (if pyIn (pyLower q) (pyLower t.name) = true
            ∨ ((get_steps db t.id "all").filter fun s =>
                pyIn (pyLower q) (pyLower s.text)) ≠ [] then
          Row.task t.id t.name (step_counts db t.id).1 (step_counts db t.id).2
              (decide (t.id ∈ collapsed)) ::
            (if t.id ∈ collapsed then []
             else (if pyIn (pyLower q) (pyLower t.name) = true then get_steps db t.id "all"
                   else (get_steps db t.id "all").filter fun s =>
                     pyIn (pyLower q) (pyLower s.text)).map mkStepRow)
        else []) := by
  have hq' : pyLower q ≠ "" := pyLower_ne_empty hq
  have hshape := rowsForTask_query_eq db collapsed hq' t
  refine ⟨⟨?_, ?_⟩, hshape⟩
  · rintro ⟨r, hr, n, tot, d, cl, he⟩
    rcases List.mem_flatMap.mp hr with ⟨t', ht', hr'⟩
    have hid := (task_row_mem_rowsForTask hr' he).1
    have htt : t' = t := by
      have h1 := (mem_get_tasks_active.mp ht').1
      have h2 := (mem_get_tasks_active.mp ht).1
      exact List.inj_on_of_nodup_map hids h1 h2 hid.symm
    subst htt
    by_contra hcon
    push_neg at hcon
    rw [rowsForTask_query_eq db collapsed hq' t', if_neg ?hcon'] at hr'
    · cases hr'
    · rw [not_or]
      exact ⟨hcon.1, not_not_intro hcon.2⟩
  · intro hmatch
    refine ⟨Row.task t.id t.name (step_counts db t.id).1 (step_counts db t.id).2
        (decide (t.id ∈ collapsed)), ?_, t.name, _, _, _, rfl⟩
    apply List.mem_flatMap.mpr
    refine ⟨t, ht, ?_⟩
    rw [hshape, if_pos hmatch]
    exact List.mem_cons_self _ _

/-- C1 witness: the query theorem at `dbDemo`'s task "Ship release" with
query `"tag"` (the spec scenario: the name does not match, one step does). -/
theorem build_tree_query_filter_witness :
    ("tag" ≠ "" ∧ (dbDemo.tasks.map Task.id).Nodup
      ∧ (⟨1, 1, "Ship release", "active", "t0"⟩ : Task) ∈ get_tasks dbDemo 1 (some "active"))
    ∧ (((∃ r ∈ build_tree dbDemo 1 ∅ "tag", ∃ n tot d cl, r = Row.task 1 n tot d cl)
        ↔ (pyIn (pyLower "tag") (pyLower "Ship release") = true
            ∨ ((get_steps dbDemo 1 "all").filter fun s =>
                pyIn (pyLower "tag") (pyLower s.text)) ≠ []))
      ∧ rowsForTask dbDemo ∅ (pyLower "tag") ⟨1, 1, "Ship release", "active", "t0"⟩ =
          (if pyIn (pyLower "tag") (pyLower "Ship release") = true
              ∨ ((get_steps dbDemo 1 "all").filter fun s =>
                  pyIn (pyLower "tag") (pyLower s.text)) ≠ [] then
            Row.task 1 "Ship release" (step_counts dbDemo 1).1 (step_counts dbDemo 1).2
                (decide ((1:Nat) ∈ (∅ : Finset Nat))) ::
              (if (1:Nat) ∈ (∅ : Finset Nat) then []
               else (if pyIn (pyLower "tag") (pyLower "Ship release") = true then
                       get_steps dbDemo 1 "all"
                     else (get_steps dbDemo 1 "all").filter fun s =>
                       pyIn (pyLower "tag") (pyLower s.text)).map mkStepRow)
          else [])) :=
  ⟨⟨by decide, by decide, by decide⟩,
    build_tree_query_filter dbDemo 1 ∅ "tag" (by decide) (by decide)
      ⟨1, 1, "Ship release", "active", "t0"⟩ (by decide)⟩

lemma taskIdsOf_map_mkStepRow (l : List Step) : taskIdsOf (l.map mkStepRow) = [] := by
  induction l with
  | nil => rfl
  | cons s l ih => exact ih

lemma taskIdsOf_rowsForTask_sublist (db : DB) (c : Finset Nat) (q : String) (t : Task) :
    (taskIdsOf (rowsForTask db c q t)).Sublist [t.id] := by
  rcases rowsForTask_shape db c q t with h | ⟨l, _, h⟩
  · rw [h]
    exact List.nil_sublist _
  · rw [h]
    have : taskIdsOf (Row.task t.id t.name (step_counts db t.id).1 (step_counts db t.id).2
        (decide (t.id ∈ c)) :: l.map mkStepRow) = t.id :: taskIdsOf (l.map mkStepRow) := rfl
    rw [this, taskIdsOf_map_mkStepRow]

lemma taskIdsOf_flatMap_sublist (db : DB) (c : Finset Nat) (q : String) :
    ∀ ts : List Task,
      (taskIdsOf (ts.flatMap (rowsForTask db c q))).Sublist (ts.map Task.id) := by
  intro ts
  induction ts with
  | nil => exact List.Sublist.refl _
  | cons t ts ih =>
    rw [List.flatMap_cons, List.map_cons]
    have happ : taskIdsOf (rowsForTask db c q t ++ ts.flatMap (rowsForTask db c q))
        = taskIdsOf (rowsForTask db c q t) ++ taskIdsOf (ts.flatMap (rowsForTask db c q)) :=
      List.filterMap_append _ _ _
    rw [happ]
    exact (taskIdsOf_rowsForTask_sublist db c q t).append ih

/-- C6 counterexample: `dbProg`'s only task is `in_progress` — not done — yet
the flattener omits it entirely (the empty row list), so the tree view does
not show all non-done tasks. -/
theorem active_filter_counterexample :
    (⟨1, 1, "Busy", "in_progress", "t0"⟩ : Task) ∈ dbProg.tasks
    ∧ (⟨1, 1, "Busy", "in_progress", "t0"⟩ : Task).status ≠ "done"
    ∧ build_tree dbProg 1 ∅ "" = [] := by
  decide

/-- C6 (amended): the flattener considers tasks in stored (ascending id)
order and only tasks whose status is exactly `"active"`: every Task row in
any flattened list comes from an `"active"` task of the workspace — so a
task with status `"in_progress"` (or `"done"`) never appears — and the Task
rows appear in ascending id order. -/
theorem build_tree_active_only (db : DB) (workspace_id : Nat) (collapsed : Finset Nat)
    (q : String) :
    (∀ r ∈ build_tree db workspace_id collapsed q, ∀ i n tot d cl,
      r = Row.task i n tot d cl →
        ∃ t ∈ db.tasks, t.workspace_id = workspace_id ∧ t.status = "active"
          ∧ t.id = i ∧ t.name = n)
    ∧ List.Sorted (· ≤ ·) (taskIdsOf (build_tree db workspace_id collapsed q)) := by
  constructor
  · intro r hr i n tot d cl he
    rcases List.mem_flatMap.mp hr with ⟨t, ht, hr'⟩
    have hfields := task_row_mem_rowsForTask hr' he
    rcases mem_get_tasks_active.mp ht with ⟨hmem, hws, hst⟩
    exact ⟨t, hmem, hws, hst, hfields.1.symm, hfields.2.1.symm⟩
  · have hsorted : List.Sorted taskIdRel (get_tasks db workspace_id (some "active")) :=
      List.sorted_insertionSort _ _
    have hmap : List.Sorted (· ≤ ·)
        ((get_tasks db workspace_id (some "active")).map Task.id) :=
      List.pairwise_map.mpr hsorted
    exact List.Pairwise.sublist (taskIdsOf_flatMap_sublist db collapsed (pyLower q) _) hmap

/-- C6 witness: the amended theorem applied to `dbDemo`'s single Task row. -/
theorem build_tree_active_only_witness :
    (Row.task 1 "Ship release" 2 1 false ∈ build_tree dbDemo 1 ∅ "")
    ∧ ∃ t ∈ dbDemo.tasks, t.workspace_id = 1 ∧ t.status = "active"
        ∧ t.id = 1 ∧ t.name = "Ship release" :=
  ⟨by decide,
    (build_tree_active_only dbDemo 1 ∅ "").1 (Row.task 1 "Ship release" 2 1 false)
      (by decide) 1 "Ship release" 2 1 false rfl⟩

lemma wellNested_map_mkStepRow_append (tid : Nat) (l : List Step) (ys : List Row)
    (h : ∀ s ∈ l, s.task_id = tid) :
    wellNested (some tid) (l.map mkStepRow ++ ys) = wellNested (some tid) ys := by
  induction l with
  | nil => rfl
  | cons s l ih =>
    have hs := h s (List.mem_cons_self s l)
    have hred : wellNested (some tid) ((s :: l).map mkStepRow ++ ys)
        = ((some tid == some s.task_id) && wellNested (some tid) (l.map mkStepRow ++ ys)) := rfl
    rw [hred, hs, ih (fun s' hs' => h s' (List.mem_cons_of_mem s hs'))]
    simp

lemma wellNested_flatMap (db : DB) (c : Finset Nat) (q : String) :
    ∀ (ts : List Task) (o : Option Nat),
      wellNested o (ts.flatMap (rowsForTask db c q)) = true := by
  intro ts
  induction ts with
  | nil => intro o; rfl
  | cons t ts ih =>
    intro o
    rw [List.flatMap_cons]
    rcases rowsForTask_shape db c q t with h | ⟨l, hl, h⟩
    · rw [h, List.nil_append]
      exact ih o
    · rw [h, List.cons_append]
      show wellNested (some t.id) (l.map mkStepRow ++ ts.flatMap (rowsForTask db c q)) = true
      rw [wellNested_map_mkStepRow_append t.id l _ (fun s hs => mem_get_steps (hl s hs))]
      exact ih _

lemma headIsTask_flatMap (db : DB) (c : Finset Nat) (q : String) :
    ∀ ts : List Task, headIsTask (ts.flatMap (rowsForTask db c q)) = true := by
  intro ts
  induction ts with
  | nil => rfl
  | cons t ts ih =>
    rw [List.flatMap_cons]
    rcases rowsForTask_shape db c q t with h | ⟨l, _, h⟩
    · rw [h, List.nil_append]
      exact ih
    · rw [h, List.cons_append]
      rfl

/-- C10: in every flattened row list, the first row (when the list is
non-empty) is a Task row, and every Step row's `task_id` equals the id of the
nearest preceding Task row — each step appears directly under its owning
task, never orphaned or under a different task. -/
theorem build_tree_well_nested (db : DB) (workspace_id : Nat) (collapsed : Finset Nat)
    (search_query : String) :
    wellNested none (build_tree db workspace_id collapsed search_query) = true
    ∧ headIsTask (build_tree db workspace_id collapsed search_query) = true := by
  unfold build_tree
  exact ⟨wellNested_flatMap db collapsed (pyLower search_query) _ none,
    headIsTask_flatMap db collapsed (pyLower search_query) _⟩

/-- C3 witness: the amended reconciliation theorem at rows of length 3,
cursor 10, scroll 0, visible height 2. -/
theorem reconcile_spec_witness :
    (1:Int) ≤ 2 ∧ (3:Nat) ≠ 0
    ∧ ((reconcile 0 10 0 2 = (0, 0))
      ∧ (reconcile 3 10 0 2).1 = max 0 (min 10 ((3 : Int) - 1))
      ∧ 0 ≤ (reconcile 3 10 0 2).1
      ∧ (reconcile 3 10 0 2).1 ≤ (3 : Int) - 1
      ∧ (reconcile 3 10 0 2).2 =
          (if (reconcile 3 10 0 2).1 < 0 then (reconcile 3 10 0 2).1
          else if 0 + 2 ≤ (reconcile 3 10 0 2).1 then (reconcile 3 10 0 2).1 - 2 + 1
          else 0)
      ∧ (reconcile 3 10 0 2).2 ≤ (reconcile 3 10 0 2).1
      ∧ (reconcile 3 10 0 2).1 ≤ (reconcile 3 10 0 2).2 + 2 - 1) :=
  ⟨by decide, by decide, reconcile_spec 3 10 0 2 (by decide) (by decide)⟩
